import Mathlib

/-!
# Verification of the mcp-image reference-resolution / job-polling core

Shallow embedding of the TypeScript sources `src/index.ts` and `src/storage.ts`
(the AIImageMCPServer resolver, upload, job-polling, upscale and search logic,
and the local record store).  JavaScript strings are modelled as Lean `String`,
JavaScript numbers as the `ENum` type below (finite rationals plus `NaN`/`±∞`),
`undefined`/heterogeneous `unknown` values as the `Jv` type, and thrown
`McpError`s as `Except` errors.  Remote HTTP calls, the file system, the clock,
`Date.parse` and `JSON.stringify` are abstracted as explicit environment
functions supplied to each embedded operation.
-/

/-- A JavaScript number: a finite (IEEE-representable) value modelled as a
rational, or one of the non-finite values.  The code under verification only
ever floors, compares and range-checks these, so no rounding model is needed. -/
inductive ENum where
  | finite (q : ℚ)
  | nan
  | posInf
  | negInf
deriving DecidableEq

/-- `Number.isFinite` on an `ENum`. -/
def ENum.isFinite : ENum → Bool
  | .finite _ => true
  | _ => false

/-- A JavaScript value (`unknown` in the TypeScript sources).  Objects are
association lists in key order; `undefined` doubles for an absent property. -/
inductive Jv where
  | undefined
  | null
  | bool (b : Bool)
  | num (n : ENum)
  | str (s : String)
  | arr (elems : List Jv)
  | obj (fields : List (String × Jv))

/-- Shorthand for a JavaScript integer value. -/
def Jv.int (n : Int) : Jv := .num (.finite (n : ℚ))

/-- Reading a property of a JavaScript object (association-list model):
the first binding of the key wins, as keys are unique in objects built by
`Jv.objSet`. -/
def Jv.objGet (fields : List (String × Jv)) (key : String) : Option Jv :=
  match fields.find? (fun kv => kv.1 = key) with
  | some kv => some kv.2
  | none => none

/-- Assigning a property of a JavaScript object: any previous binding of the
key is dropped and the new binding appended.  This is the observable effect of
an object-literal spread `\x7b...base, key: value\x7d` overriding `key`. -/
def Jv.objSet (fields : List (String × Jv)) (key : String) (value : Jv) :
    List (String × Jv) :=
  fields.filter (fun kv => kv.1 ≠ key) ++ [(key, value)]

/-- The MCP SDK error codes used by this server (`McpError`'s `code`
argument in the sources; the SDK has no dedicated not-found/timeout codes,
every failure is raised as `InvalidRequest` or `InternalError`). -/
inductive ErrorCode where
  | invalidRequest
  | internalError
deriving DecidableEq

/-- A thrown `McpError` (code and message). -/
structure McpError where
  code : ErrorCode
  message : String
deriving DecidableEq

/-- JavaScript `String.prototype.trim`: strip leading and trailing
whitespace (the JavaScript and Lean whitespace classes agree on the
characters appearing in this code base). -/
def jsTrim (s : String) : String :=
  String.mk (((s.data.dropWhile Char.isWhitespace).reverse.dropWhile
    Char.isWhitespace).reverse)

/-- JavaScript `String.prototype.toLowerCase` (ASCII suffices here). -/
def jsToLower (s : String) : String :=
  String.mk (s.data.map Char.toLower)

/-- `sanitizeOptionalString` from `src/index.ts`: non-strings become
`undefined`, strings are trimmed, empty trims become `undefined`. -/
def sanitizeOptionalString (value : Jv) : Option String :=
  match value with
  | .str s =>
    let trimmed := jsTrim s
    if trimmed.length > 0 then some trimmed else none
  | _ => none

/-- `sanitizeOptionalString` applied to a TypeScript `string | undefined`
value (the `typeof value !== 'string'` test only rules out `undefined`). -/
def sanitizeOptStr (value : Option String) : Option String :=
  match value with
  | some s =>
    let trimmed := jsTrim s
    if trimmed.length > 0 then some trimmed else none
  | none => none

/-- A raw parameter value the reference resolver treats as not provided:
absent (`undefined`) or any non-string, or a string that is empty after
trimming.  Exactly the values on which `sanitizeOptionalString` is `none`. -/
def blankJs (v : Jv) : Prop :=
  match v with
  | .str s => jsTrim s = ""
  | _ => True

/-! ## Local record store (`src/storage.ts`) -/

/-- `ImageRecord` from `src/storage.ts`. -/
structure ImageRecord where
  id : String
  filename : String
  prompt : String
  model : String
  createdAt : String
  params : List (String × Jv)
  imageToken : Option String := none
  metadata : Option (List (String × Jv)) := none
  downloadUrl : Option String := none
  mimeType : Option String := none

/-- The state owned by the local record store: the parsed `metadata.json`
array (newest record first) and the image directory, as a map from filename
to the base64 encoding of the stored bytes. -/
structure StorageState where
  records : List ImageRecord
  files : String → Option String

/-- `SaveImageInfo` from `src/storage.ts`. -/
structure SaveImageInfo where
  prompt : String
  model : String
  params : List (String × Jv)
  imageToken : Option String := none
  metadata : Option (List (String × Jv)) := none
  downloadUrl : Option String := none
  mimeType : Option String := none

/-- `saveImage` from `src/storage.ts`.  The generated UUID and the ISO
timestamp are impure inputs, passed explicitly.  The new record is
`unshift`ed onto the metadata array (newest first) and the decoded payload
is written to `<id>.png`; the base64 payload stands for the written bytes. -/
def saveImage (st : StorageState) (freshId nowIso : String)
    (base64Data : String) (info : SaveImageInfo) :
    ImageRecord × StorageState :=
  let filename := freshId ++ ".png"
  let record : ImageRecord := {
    id := freshId
    filename := filename
    prompt := info.prompt
    model := info.model
    createdAt := nowIso
    params := info.params
    imageToken := info.imageToken
    metadata := info.metadata
    downloadUrl := info.downloadUrl
    mimeType := some (info.mimeType.getD "image/png") }
  (record,
   { records := record :: st.records
     files := fun f => if f = filename then some base64Data else st.files f })

/-- `listImages` from `src/storage.ts`. -/
def listImages (st : StorageState) : List ImageRecord :=
  st.records

/-- `getImageRecord` from `src/storage.ts`: first record with the given id. -/
def getImageRecord (records : List ImageRecord) (id : String) :
    Option ImageRecord :=
  records.find? (fun record => record.id = id)

/-- `getImageRecordByToken` from `src/storage.ts`: first record whose
`imageToken` strictly equals the given token. -/
def getImageRecordByToken (records : List ImageRecord) (imageToken : String) :
    Option ImageRecord :=
  records.find? (fun record => record.imageToken = some imageToken)

/-- `readImageBase64` from `src/storage.ts`: read the record's image file and
base64-encode it; a missing file is a thrown error, modelled as `none` of the
file map. -/
def readImageBase64 (files : String → Option String) (record : ImageRecord) :
    Option String :=
  files record.filename

/-- `RESOURCE_URI_PREFIX` from `src/storage.ts`. -/
def RESOURCE_URI_PREFIX : String := "resource://ai-image-api/image/"

/-- `getResourceUri` from `src/storage.ts`. -/
def getResourceUri (id : String) : String :=
  RESOURCE_URI_PREFIX ++ id

/-! ## Resource-URI parsing (`extractResourceId`, `src/index.ts`) -/

/-- JavaScript `String.prototype.startsWith` on the character sequence. -/
def jsStartsWith (s pre : String) : Bool :=
  pre.data.isPrefixOf s.data

/-- JavaScript `String.prototype.slice` with a single non-negative start
index: drop that many code units from the front. -/
def jsSliceFrom (s : String) (n : Nat) : String :=
  String.mk (s.data.drop n)

/-- `extractResourceId` from `src/index.ts`: the URI must start with
`RESOURCE_URI_PREFIX`; the remainder is trimmed and must be non-empty. -/
def extractResourceId (uri : String) : Except McpError String :=
  if jsStartsWith uri RESOURCE_URI_PREFIX then
    let resourceId := jsTrim (jsSliceFrom uri RESOURCE_URI_PREFIX.length)
    if resourceId = "" then
      .error ⟨.invalidRequest, "Resource ID is missing"⟩
    else
      .ok resourceId
  else
    .error ⟨.invalidRequest, "Unsupported resource URI: " ++ uri⟩

/-! ## Image reference resolution (`src/index.ts`) -/

/-- `ImageReferenceInput` (the three reference fields read from the raw tool
parameters; each is an arbitrary JavaScript value, `undefined` when absent). -/
structure ImageReferenceInput where
  resource_uri : Jv := .undefined
  image_token : Jv := .undefined
  image_base64 : Jv := .undefined

/-- Which of the three variants a resolved reference came from. -/
inductive RefSource where
  | resource_uri
  | image_token
  | image_base64
deriving DecidableEq

/-- `ResolvedImageReference` from `src/index.ts`. -/
structure ResolvedImageReference where
  imageToken : Option String := none
  record : Option ImageRecord := none
  directBase64 : Option String := none
  source : RefSource

/-- `resolveImageReference` from `src/index.ts`: try `resource_uri`, then
`image_token`, then `image_base64`; first sanitized-non-empty field wins.
The resource branch dereferences the store (propagating `extractResourceId`
failures) and fails when no record has the extracted id; the token branch
does a best-effort lookup by token and succeeds even without a record. -/
def resolveImageReference (records : List ImageRecord)
    (input : ImageReferenceInput) : Except McpError ResolvedImageReference :=
  match sanitizeOptionalString input.resource_uri with
  | some resourceUri =>
    match extractResourceId resourceUri with
    | .error e => .error e
    | .ok resourceId =>
      match getImageRecord records resourceId with
      | none => .error ⟨.invalidRequest, "Resource not found: " ++ resourceUri⟩
      | some record =>
        .ok { imageToken := sanitizeOptStr record.imageToken
              record := some record
              source := .resource_uri }
  | none =>
  match sanitizeOptionalString input.image_token with
  | some imageToken =>
    .ok { imageToken := some imageToken
          record := getImageRecordByToken records imageToken
          source := .image_token }
  | none =>
  match sanitizeOptionalString input.image_base64 with
  | some imageBase64 =>
    .ok { directBase64 := some imageBase64, source := .image_base64 }
  | none =>
    .error ⟨.invalidRequest,
      "Provide at least one of resource_uri, image_token, or image_base64."⟩

/-- `readRecordBase64` from `src/index.ts`: `readImageBase64` with any thrown
error logged and converted to `undefined`. -/
def readRecordBase64 (files : String → Option String) (record : ImageRecord) :
    Option String :=
  readImageBase64 files record

/-- `ImageUploadRequest` from `src/types.ts`. -/
structure ImageUploadRequest where
  image_base64 : String
  source : Option String := none
  prompt : Option String := none
  negative_prompt : Option String := none
  parameters : Option (List (String × Jv)) := none
  derived_from : Option (List String) := none
  tags : Option (List String) := none
  extra : Option (List (String × Jv)) := none
  filename : Option String := none

/-- `ImageUploadResponse` from `src/types.ts`. -/
structure ImageUploadResponse where
  image_token : String
  metadata : List (String × Jv) := []

/-- The options record of `ensureImageToken`.  The source takes the whole
record and each field as optional; `options?.uploadIfNeeded` is truthy
exactly when the flag is present and `true`, so an absent record or flag is
modelled by the default `false`. -/
structure EnsureOptions where
  uploadIfNeeded : Bool := false
  uploadSource : Option String := none
  derivedFrom : Option (List String) := none
  prompt : Option String := none

/-- `ensureImageToken` from `src/index.ts`.  The remote "store image" call is
the `upload` environment function; the returned list records every upload
request issued (the source performs at most one).  An existing token is
returned as-is; otherwise, without `uploadIfNeeded`, the call fails; with it,
bytes are taken from the inline input or from the record's cached file, and
one upload is performed. -/
def ensureImageToken (upload : ImageUploadRequest → ImageUploadResponse)
    (files : String → Option String)
    (reference : ResolvedImageReference) (options : EnsureOptions) :
    Except McpError ((String × Option ImageRecord) × List ImageUploadRequest) :=
  match reference.imageToken with
  | some imageToken => .ok ((imageToken, reference.record), [])
  | none =>
    if !options.uploadIfNeeded then
      .error ⟨.invalidRequest, "image_token is required for this operation."⟩
    else
      let base64 : Option String :=
        match reference.directBase64 with
        | some b => some b
        | none =>
          match reference.record with
          | some record => readRecordBase64 files record
          | none => none
      match base64 with
      | none =>
        .error ⟨.invalidRequest,
          "Unable to resolve base64 image data. Provide image_base64 explicitly or reference a cached resource."⟩
      | some b =>
        let uploadRequest : ImageUploadRequest := {
          image_base64 := b
          source := some (options.uploadSource.getD "mcp-upload")
          derived_from := options.derivedFrom
          prompt := options.prompt }
        let uploadResponse := upload uploadRequest
        .ok ((uploadResponse.image_token, reference.record), [uploadRequest])

/-- `ImageTokenLookupResponse` from `src/types.ts`. -/
structure ImageTokenLookupResponse where
  image_token : String
  metadata : List (String × Jv) := []
  image_base64 : Option String := none
  download_url : Option String := none
  mime_type : Option String := none

/-- `fetchImageBase64` from `src/index.ts`: best-effort remote lookup by
token; a thrown error is logged and converted to `undefined`. -/
def fetchImageBase64
    (getImageByToken : String → Except String ImageTokenLookupResponse)
    (imageToken : String) : Option String :=
  match getImageByToken imageToken with
  | .ok lookup => sanitizeOptStr lookup.image_base64
  | .error _ => none

/-! ## Job polling (`waitForJobResult`, `src/index.ts`) -/

/-- `JobResultResponse` from `src/types.ts`. -/
structure JobResultResponse where
  status : String
  image_token : Option String := none
  metadata : Option (List (String × Jv)) := none
  image_base64 : Option String := none
  error : Option String := none

/-- The environment of one polling run.  `now k` is the value of the `k`-th
`Date.now()` call (call 0 computes the deadline, call `k + 1` is the loop
guard before attempt `k`); `getJobResult k` is the outcome of the `k`-th
`getApiClient().getJobResult` call, `.error m` standing for a thrown error
with message `m` (network failure, 404/not-ready response, ...). -/
structure PollEnv where
  now : Nat → Int
  getJobResult : Nat → Except String JobResultResponse

/-- The options record of `waitForJobResult`. -/
structure WaitOptions where
  includeBase64 : Option Bool := none
  pollIntervalSeconds : Option Int := none
  timeoutSeconds : Option Int := none

/-- The timeout error thrown after the deadline (`cfgTimeout` is the raw
`options.timeoutSeconds ?? 300`, `lastStatus` the last pending status seen). -/
def timeoutError (jobId : String) (cfgTimeout : Int)
    (lastStatus : Option String) : McpError :=
  ⟨.internalError,
    "Job " ++ jobId ++ " did not complete within " ++ toString cfgTimeout ++
      " seconds (last status: " ++ lastStatus.getD "unknown" ++ ")."⟩

/-- The failure error built (and immediately swallowed, see `pollLoop`) for a
terminal-failure status. -/
def jobFailedError (jobId : String) (errorDetail : Option String) : McpError :=
  ⟨.internalError, "Job " ++ jobId ++ " failed: " ++ errorDetail.getD "Unknown error"⟩

/-- Marker for exhausted fuel.  `waitForJobResult` supplies enough fuel that
this value is unreachable whenever the clock advances by at least 1 ms per
iteration; the polling theorems prove exactly that. -/
def fuelExhausted : McpError :=
  ⟨.internalError, "unreachable: polling fuel exhausted"⟩

/-- The `while (Date.now() < deadline)` loop of `waitForJobResult`, by
recursion on fuel.  `k` counts attempts already made (so guard `k` reads
`now (k + 1)`), `lastStatus` is the mutable variable of the source.  One
subtlety is modelled faithfully: the `McpError` thrown for a terminal-failure
status (`"failed"`/`"error"`/`"cancelled"`) is raised *inside* the `try`
block, and the `catch` block swallows every error (its regular-expression
test only decides whether a warning is logged).  A failure status therefore
does not leave the loop: control falls through to the delay and polling
continues, with `lastStatus` not updated (its assignment sits after the
throw).  The returned `Nat` is the number of `getJobResult` calls made. -/
def pollLoop (env : PollEnv) (jobId : String) (deadline : Int)
    (cfgTimeout : Int) :
    Nat → Nat → Option String → Except McpError JobResultResponse × Nat
  | 0, k, _ => (.error fuelExhausted, k)
  | fuel + 1, k, lastStatus =>
    if env.now (k + 1) < deadline then
      match env.getJobResult k with
      | .ok result =>
        let status := jsToLower result.status
        if status = "succeeded" ∨ status = "completed" then
          (.ok result, k + 1)
        else if status = "failed" ∨ status = "error" ∨ status = "cancelled" then
          -- thrown `jobFailedError jobId result.error`, caught and swallowed
          pollLoop env jobId deadline cfgTimeout fuel (k + 1) lastStatus
        else
          pollLoop env jobId deadline cfgTimeout fuel (k + 1) (some status)
      | .error _ =>
        -- transient fetch error: swallowed (logging only), loop continues
        pollLoop env jobId deadline cfgTimeout fuel (k + 1) lastStatus
    else
      (.error (timeoutError jobId cfgTimeout lastStatus), k)

/-- `waitForJobResult` from `src/index.ts`.  Returns the outcome (`.ok` the
job result, `.error` the thrown `McpError`) together with the number of polls
performed. -/
def waitForJobResult (env : PollEnv) (jobId : String) (options : WaitOptions) :
    Except McpError JobResultResponse × Nat :=
  -- the poll interval only drives `this.delay`, whose effect lives in `now`
  let _pollIntervalMs := max 1 (options.pollIntervalSeconds.getD 5) * 1000
  let timeoutMs := max 1 (options.timeoutSeconds.getD 300) * 1000
  let deadline := env.now 0 + timeoutMs
  pollLoop env jobId deadline (options.timeoutSeconds.getD 300)
    (timeoutMs.toNat + 1) 0 none

/-- The value of the loop's `lastStatus` variable once `n` attempts have been
made (and none has made the loop return): only a successful poll with a
non-terminal status stores its lower-cased status. -/
def lastObservedStatus (env : PollEnv) : Nat → Option String
  | 0 => none
  | n + 1 =>
    match env.getJobResult n with
    | .ok result =>
      let status := jsToLower result.status
      if status = "succeeded" ∨ status = "completed" then
        lastObservedStatus env n
      else if status = "failed" ∨ status = "error" ∨ status = "cancelled" then
        lastObservedStatus env n
      else
        some status
    | .error _ => lastObservedStatus env n

/-! ## Numeric parameter validation (`src/index.ts`) -/

/-- `parseOptionalNumber` from `src/index.ts`.  A raw value of
`undefined`/`null`/`''` is `none`; otherwise the argument is the JavaScript
number obtained from the value (`Number(value)` for non-numbers), since the
source's behaviour depends only on that number.  Bounds are the integer
literals used at the call sites. -/
def parseOptionalNumber (value : Option ENum) (field : String)
    (min? max? : Option Int) : Except McpError (Option ℚ) :=
  match value with
  | none => .ok none
  | some numeric =>
    match numeric with
    | .finite q =>
      let maxCheck : Except McpError (Option ℚ) :=
        match max? with
        | some m =>
          if (m : ℚ) < q then
            .error ⟨.invalidRequest,
              field ++ " must not exceed " ++ toString m ++ "."⟩
          else .ok (some q)
        | none => .ok (some q)
      match min? with
      | some m =>
        if q < (m : ℚ) then
          .error ⟨.invalidRequest,
            field ++ " must be at least " ++ toString m ++ "."⟩
        else maxCheck
      | none => maxCheck
    | _ => .error ⟨.invalidRequest, field ++ " must be a finite number."⟩

/-- `parseOptionalInteger` from `src/index.ts`: `parseOptionalNumber`
followed by an integrality check. -/
def parseOptionalInteger (value : Option ENum) (field : String)
    (min? max? : Option Int) : Except McpError (Option Int) :=
  match parseOptionalNumber value field min? max? with
  | .error e => .error e
  | .ok none => .ok none
  | .ok (some q) =>
    if q.den = 1 then
      .ok (some q.num)
    else
      .error ⟨.invalidRequest, field ++ " must be an integer."⟩

/-! ## Upscale tool handler (`handleUpscaleImage`, `src/index.ts`) -/

/-- `UpscaleRequest` from `src/types.ts` (`scale` present iff supplied). -/
structure UpscaleRequest where
  image_token : String
  scale : Option Int := none

/-- `UpscaleJobStatusResponse` from `src/types.ts`. -/
structure UpscaleJobStatusResponse where
  job_id : String
  status : String

/-- A key/value entry present only when the value is defined (JSON objects
produced by the remote service have no `undefined` members). -/
def optField (key : String) : Option Jv → List (String × Jv)
  | some v => [(key, v)]
  | none => []

/-- The `request` object stored in the saved record's `params`. -/
def encodeUpscaleRequest (r : UpscaleRequest) : Jv :=
  .obj ([("image_token", .str r.image_token)] ++
    optField "scale" (r.scale.map Jv.int))

/-- The `job_result` object stored in the saved record's `params`. -/
def encodeJobResult (r : JobResultResponse) : Jv :=
  .obj ([("status", .str r.status)] ++
    optField "image_token" (r.image_token.map .str) ++
    optField "metadata" (r.metadata.map .obj) ++
    optField "image_base64" (r.image_base64.map .str) ++
    optField "error" (r.error.map .str))

/-- The collaborators of one `handleUpscaleImage` invocation: the local
store state, the remote client calls it performs, and the impure inputs of
the final `saveImage`. -/
structure UpscaleEnv where
  storage : StorageState
  uploadImage : ImageUploadRequest → ImageUploadResponse
  upscaleImage : UpscaleRequest → UpscaleJobStatusResponse
  poll : PollEnv
  getImageByToken : String → Except String ImageTokenLookupResponse
  freshId : String
  nowIso : String

/-- The raw tool parameters of `upscale_image` (numeric fields abstracted
to the JavaScript number they convert to, as in `parseOptionalNumber`). -/
structure UpscaleParams where
  resource_uri : Jv := .undefined
  image_token : Jv := .undefined
  image_base64 : Jv := .undefined
  scale : Option ENum := none
  poll_timeout_seconds : Option ENum := none
  poll_interval_seconds : Option ENum := none

/-- The observable outcome of a successful `handleUpscaleImage` call: the
record appended to the store, the new store state, and the fields of the
JSON payload assembled at the end of the handler. -/
structure UpscaleOutcome where
  savedRecord : ImageRecord
  storage : StorageState
  job_id : String
  status : String
  image_token : Option String
  resource_uri : String
  mime_type : String
  created_at : String
  metadata : List (String × Jv)
  original_image_token : String
  used_scale : Int
  base64 : String

/-- `handleUpscaleImage` from `src/index.ts`: resolve the reference, validate
`scale` and the polling bounds, ensure a token (uploading if needed), submit
the upscale job, poll it, materialize the result bytes (inline or by token
lookup), and save a record whose metadata is the job metadata extended with
`upscaled_from` (the ensured source token) and `upscale_scale`
(`scale ?? 2`). -/
def handleUpscaleImage (env : UpscaleEnv) (params : UpscaleParams) :
    Except McpError UpscaleOutcome :=
  match resolveImageReference env.storage.records
      ⟨params.resource_uri, params.image_token, params.image_base64⟩ with
  | .error e => .error e
  | .ok reference =>
  match parseOptionalInteger params.scale "scale" (some 1) (some 8) with
  | .error e => .error e
  | .ok scale =>
  match parseOptionalInteger params.poll_timeout_seconds
      "poll_timeout_seconds" (some 1) (some 1800) with
  | .error e => .error e
  | .ok timeoutOpt =>
  match parseOptionalInteger params.poll_interval_seconds
      "poll_interval_seconds" (some 1) (some 60) with
  | .error e => .error e
  | .ok intervalOpt =>
    let timeoutSeconds := timeoutOpt.getD 300
    let intervalSeconds := intervalOpt.getD 5
    let derivedFrom := reference.imageToken.map (fun t => [t])
    match ensureImageToken env.uploadImage env.storage.files reference
        { uploadIfNeeded := true
          uploadSource := some "mcp-upscale-upload"
          derivedFrom := derivedFrom } with
    | .error e => .error e
    | .ok (ensured, _uploads) =>
      let request : UpscaleRequest := { image_token := ensured.1, scale := scale }
      let job := env.upscaleImage request
      match sanitizeOptStr (some job.job_id) with
      | none => .error ⟨.internalError, "Upscale API did not return a job_id."⟩
      | some jobId =>
        match (waitForJobResult env.poll jobId
            { includeBase64 := some true
              pollIntervalSeconds := some intervalSeconds
              timeoutSeconds := some timeoutSeconds }).1 with
        | .error e => .error e
        | .ok jobResult =>
          let base64First := sanitizeOptStr jobResult.image_base64
          let base64Opt :=
            match base64First, jobResult.image_token with
            | none, some tok => fetchImageBase64 env.getImageByToken tok
            | b, _ => b
          match base64Opt with
          | none =>
            .error ⟨.internalError,
              "Upscale job completed but did not provide image_base64."⟩
          | some base64 =>
            let originalPrompt :=
              match ensured.2 with
              | some record => record.prompt
              | none => "[original prompt unavailable]"
            let metadataRecord := jobResult.metadata.getD []
            let mergedMetadata :=
              Jv.objSet
                (Jv.objSet metadataRecord "upscaled_from" (.str ensured.1))
                "upscale_scale" (Jv.int (scale.getD 2))
            let saved := saveImage env.storage env.freshId env.nowIso base64
              { prompt := originalPrompt
                model := "modal-upscale"
                params := [("request", encodeUpscaleRequest request),
                           ("job_result", encodeJobResult jobResult)]
                imageToken := jobResult.image_token
                metadata := some mergedMetadata
                downloadUrl := none
                mimeType := some "image/png" }
            .ok { savedRecord := saved.1
                  storage := saved.2
                  job_id := jobId
                  status := jobResult.status
                  image_token :=
                    match jobResult.image_token with
                    | some tok => some tok
                    | none => saved.1.imageToken
                  resource_uri := getResourceUri saved.1.id
                  mime_type := (saved.1.mimeType).getD "image/png"
                  created_at := saved.1.createdAt
                  metadata := metadataRecord
                  original_image_token := ensured.1
                  used_scale := scale.getD 2
                  base64 := base64 }

/-! ## Search tool handler (`handleSearchImages`, `src/index.ts`) -/

/-- The ambient functions of `handleSearchImages`: the record store contents
and the JavaScript built-ins it consults.  `dateParse` models `Date.parse`
(`none` for `NaN`); `stringifyParams` models `JSON.stringify` on a record's
`params` object (only fed to the substring test of the free-text filter). -/
structure SearchEnv where
  records : List ImageRecord
  dateParse : String → Option Int
  stringifyParams : List (String × Jv) → String

/-- `ImageSearchParams` from `src/types.ts`; `limit` is declared a number
but reaches the handler unvalidated, hence the full JavaScript-number model
(its `Number(limit)` conversion is abstracted as in `parseOptionalNumber`). -/
structure ImageSearchParams where
  query : Option String := none
  model : Option String := none
  limit : Option ENum := none
  before : Option String := none
  after : Option String := none

/-- One entry of the `results` array of the search payload. -/
structure SearchResultEntry where
  id : String
  resource_uri : String
  created_at : String
  model : String
  prompt : String
  mime_type : String
  image_token : Option String
  download_url : Option String
  metadata : Option (List (String × Jv))

/-- The JSON payload of `search_images`. -/
structure SearchOutput where
  total_matches : Nat
  returned : Nat
  results : List SearchResultEntry

/-- The normalized limit: `Number.isFinite` failures (including an absent
limit) default to 5, finite values are floored and clamped to `[1, 20]`. -/
def normalizedLimitOf (limit : Option ENum) : Int :=
  match limit with
  | some (.finite q) => min (max ⌊q⌋ 1) 20
  | some _ => 5
  | none => 5

/-- JavaScript string truthiness of a `string | undefined` value. -/
def strTruthy : Option String → Bool
  | none => false
  | some s => s ≠ ""

/-- JavaScript `String.prototype.includes`. -/
def jsIncludes (s pattern : String) : Bool :=
  decide (pattern.data <:+: s.data)

/-- The `before`/`after` bound handling of `handleSearchImages`: a falsy
parameter yields no bound; a truthy one is parsed, an unparsable timestamp
(`NaN`) is an `InvalidRequest`. -/
def parseTimeBound (env : SearchEnv) (value : Option String) (field : String) :
    Except McpError (Option Int) :=
  if strTruthy value then
    match env.dateParse (value.getD "") with
    | none =>
      .error ⟨.invalidRequest,
        "Invalid \"" ++ field ++ "\" timestamp: " ++ value.getD ""⟩
    | some t => .ok (some t)
  else
    .ok none

/-- The sort key of the result ordering: `Date.parse(record.createdAt)`.
An unparsable date gives the comparator `NaN`; following the ECMAScript
treatment of a `NaN` comparator result as "equal", such records are placed
by key 0 here (the search theorems assume all stored dates parse, where the
model agrees exactly with the engine's stable sort). -/
def searchSortKey (env : SearchEnv) (record : ImageRecord) : Int :=
  (env.dateParse record.createdAt).getD 0

/-- `handleSearchImages` from `src/index.ts`: normalize `limit`, validate the
time bounds, filter by free text, model and time range, sort newest-first
(stable), truncate to the normalized limit and assemble the payload. -/
def handleSearchImages (env : SearchEnv) (params : ImageSearchParams) :
    Except McpError SearchOutput :=
  let normalizedLimit := normalizedLimitOf params.limit
  match parseTimeBound env params.before "before" with
  | .error e => .error e
  | .ok beforeTime =>
  match parseTimeBound env params.after "after" with
  | .error e => .error e
  | .ok afterTime =>
    let images0 := env.records
    let queryLower := params.query.map (fun q => jsToLower (jsTrim q))
    let images1 :=
      if strTruthy queryLower then
        images0.filter (fun (record : ImageRecord) =>
          jsIncludes (jsToLower record.prompt) (queryLower.getD "") ||
          jsIncludes (jsToLower (env.stringifyParams record.params))
            (queryLower.getD ""))
      else images0
    let modelLower := params.model.map (fun m => jsToLower (jsTrim m))
    let images2 :=
      if strTruthy modelLower then
        images1.filter (fun (record : ImageRecord) => jsToLower record.model = modelLower.getD "")
      else images1
    let images3 :=
      match afterTime with
      | some a =>
        images2.filter (fun (record : ImageRecord) =>
          match env.dateParse record.createdAt with
          | some t => a ≤ t
          | none => false)
      | none => images2
    let images4 :=
      match beforeTime with
      | some b =>
        images3.filter (fun (record : ImageRecord) =>
          match env.dateParse record.createdAt with
          | some t => t ≤ b
          | none => false)
      | none => images3
    let sorted := images4.mergeSort
      (fun a b => searchSortKey env b ≤ searchSortKey env a)
    let limited := sorted.take normalizedLimit.toNat
    let results := limited.map (fun (record : ImageRecord) =>
      { id := record.id
        resource_uri := getResourceUri record.id
        created_at := record.createdAt
        model := record.model
        prompt := record.prompt
        mime_type := record.mimeType.getD "image/png"
        image_token := record.imageToken
        download_url := record.downloadUrl
        metadata := record.metadata : SearchResultEntry })
    .ok { total_matches := sorted.length
          returned := results.length
          results := results }

/-- The match predicate of one `handleSearchImages` invocation: the
conjunction of its four conditional filters (free-text, model, after-bound,
before-bound), associated exactly as the successive `Array.filter` calls
compose.  A record is in the pre-truncation result set iff this holds. -/
def searchMatches (env : SearchEnv) (params : ImageSearchParams)
    (record : ImageRecord) : Bool :=
  (((match (if strTruthy params.before then
        env.dateParse (params.before.getD "") else none) with
      | some b =>
        match env.dateParse record.createdAt with
        | some t => t ≤ b
        | none => false
      | none => true) &&
    (match (if strTruthy params.after then
        env.dateParse (params.after.getD "") else none) with
      | some a =>
        match env.dateParse record.createdAt with
        | some t => a ≤ t
        | none => false
      | none => true)) &&
   (if strTruthy (params.model.map (fun m => jsToLower (jsTrim m))) then
      jsToLower record.model =
        (params.model.map (fun m => jsToLower (jsTrim m))).getD ""
    else true)) &&
  (if strTruthy (params.query.map (fun q => jsToLower (jsTrim q))) then
     jsIncludes (jsToLower record.prompt)
       ((params.query.map (fun q => jsToLower (jsTrim q))).getD "") ||
     jsIncludes (jsToLower (env.stringifyParams record.params))
       ((params.query.map (fun q => jsToLower (jsTrim q))).getD "")
   else true)

/-- A concrete environment exercising the full upscale pipeline: empty
store, an upload call answering `tok-src`, a submit call answering job
`job-1`, and a first poll that reports `succeeded` with inline result
bytes. -/
def upscaleDemoEnv : UpscaleEnv := {
  storage := ⟨[], fun _ => none⟩
  uploadImage := fun _ => ⟨"tok-src", []⟩
  upscaleImage := fun _ => ⟨"job-1", "queued"⟩
  poll := ⟨fun n => 1000 * (n : Int) - 1000,
           fun _ => .ok { status := "succeeded", image_token := some "tok-out",
                          image_base64 := some "SU1H" }⟩
  getImageByToken := fun _ => .error "unused"
  freshId := "id-9"
  nowIso := "2024-01-02T00:00:00.000Z" }

/-- Upscale parameters supplying only inline bytes (no scale requested). -/
def upscaleDemoParams : UpscaleParams := { image_base64 := .str "QUJD" }

/-- A two-record store with parseable dates for exercising the search
handler. -/
def searchDemoEnv : SearchEnv := {
  records := [
    { id := "a", filename := "a.png", prompt := "cat", model := "flux",
      createdAt := "2024-01-01", params := [] },
    { id := "b", filename := "b.png", prompt := "dog", model := "flux",
      createdAt := "2024-02-01", params := [] }]
  dateParse := fun s =>
    if s = "2024-01-01" then some 100
    else if s = "2024-02-01" then some 200
    else none
  stringifyParams := fun _ => "" }

/-- Search parameters with a `NaN` limit (e.g. `Number("abc")`) and no
filters. -/
def searchDemoParams : ImageSearchParams := { limit := some .nan }

/-! ## Theorems -/

/-- Helper: appending under `String.mk` recovers the string. -/
theorem string_mk_data (s : String) : String.mk s.data = s := by
  cases s
  rfl

/-- Helper: `getResourceUri` always starts with the prefix. -/
theorem jsStartsWith_getResourceUri (id : String) :
    jsStartsWith (getResourceUri id) RESOURCE_URI_PREFIX = true := by
  simp [jsStartsWith, getResourceUri, List.isPrefixOf_iff_prefix]

/-- Helper: slicing the prefix off `getResourceUri id` gives back `id`. -/
theorem jsSliceFrom_getResourceUri (id : String) :
    jsSliceFrom (getResourceUri id) RESOURCE_URI_PREFIX.length = id := by
  have h : (getResourceUri id).data.drop RESOURCE_URI_PREFIX.length = id.data := by
    simp [getResourceUri]
  simp [jsSliceFrom, h]

/-- C9: the canonical resource URI of an id is the fixed prefix
`resource://ai-image-api/image/` followed by the id; `extractResourceId`
inverts `getResourceUri` on every non-empty id without surrounding
whitespace; a URI that does not start with the prefix, or whose remainder
trims to empty, is rejected with an `InvalidRequest`-coded error. -/
theorem extractResourceId_roundtrip :
    (∀ id : String, getResourceUri id = RESOURCE_URI_PREFIX ++ id) ∧
    (∀ id : String, id ≠ "" → jsTrim id = id →
      extractResourceId (getResourceUri id) = .ok id) ∧
    (∀ uri : String, jsStartsWith uri RESOURCE_URI_PREFIX = false →
      extractResourceId uri =
        .error ⟨.invalidRequest, "Unsupported resource URI: " ++ uri⟩) ∧
    (∀ uri : String, jsStartsWith uri RESOURCE_URI_PREFIX = true →
      jsTrim (jsSliceFrom uri RESOURCE_URI_PREFIX.length) = "" →
      extractResourceId uri =
        .error ⟨.invalidRequest, "Resource ID is missing"⟩) := by
  refine ⟨fun id => rfl, ?_, ?_, ?_⟩
  · intro id hne htrim
    simp [extractResourceId, jsStartsWith_getResourceUri,
      jsSliceFrom_getResourceUri, htrim, hne]
  · intro uri h
    simp [extractResourceId, h]
  · intro uri h htrim
    simp [extractResourceId, h, htrim]

/-- Witness for `extractResourceId_roundtrip` at concrete inputs. -/
theorem extractResourceId_roundtrip_witness :
    extractResourceId (getResourceUri "abc-123") = .ok "abc-123" ∧
    extractResourceId "https://other/abc" =
      .error ⟨.invalidRequest, "Unsupported resource URI: https://other/abc"⟩ ∧
    extractResourceId "resource://ai-image-api/image/  " =
      .error ⟨.invalidRequest, "Resource ID is missing"⟩ := by
  refine ⟨?_, ?_, ?_⟩
  · exact extractResourceId_roundtrip.2.1 "abc-123" (by decide) (by decide)
  · exact extractResourceId_roundtrip.2.2.1 "https://other/abc" (by decide)
  · exact extractResourceId_roundtrip.2.2.2 "resource://ai-image-api/image/  "
      (by decide) (by decide)

/-- C7: saving a record with a token and looking it up by that token finds
the record just saved, with identical `prompt`, `model` and `imageToken`. -/
theorem saveImage_getImageRecordByToken_roundtrip
    (st : StorageState) (freshId nowIso base64Data : String)
    (info : SaveImageInfo) (token : String)
    (htoken : info.imageToken = some token) :
    getImageRecordByToken
        (saveImage st freshId nowIso base64Data info).2.records token =
      some (saveImage st freshId nowIso base64Data info).1 ∧
    (saveImage st freshId nowIso base64Data info).1.prompt = info.prompt ∧
    (saveImage st freshId nowIso base64Data info).1.model = info.model ∧
    (saveImage st freshId nowIso base64Data info).1.imageToken =
      info.imageToken := by
  refine ⟨?_, rfl, rfl, rfl⟩
  simp [saveImage, getImageRecordByToken, htoken]

/-- Witness for `saveImage_getImageRecordByToken_roundtrip`. -/
theorem saveImage_getImageRecordByToken_roundtrip_witness :
    getImageRecordByToken
        (saveImage ⟨[], fun _ => none⟩ "id-1" "2024-01-01T00:00:00.000Z" "QUJD"
          { prompt := "a cat", model := "flux", params := [],
            imageToken := some "tok-1" }).2.records "tok-1" =
      some (saveImage ⟨[], fun _ => none⟩ "id-1" "2024-01-01T00:00:00.000Z"
        "QUJD"
        { prompt := "a cat", model := "flux", params := [],
          imageToken := some "tok-1" }).1 :=
  (saveImage_getImageRecordByToken_roundtrip ⟨[], fun _ => none⟩ "id-1"
    "2024-01-01T00:00:00.000Z" "QUJD"
    { prompt := "a cat", model := "flux", params := [],
      imageToken := some "tok-1" } "tok-1" rfl).1

/-- Helper: `sanitizeOptionalString` is `none` exactly on blank values. -/
theorem sanitizeOptionalString_eq_none (v : Jv) :
    sanitizeOptionalString v = none ↔ blankJs v := by
  cases v with
  | str s =>
    simp only [sanitizeOptionalString, blankJs]
    generalize jsTrim s = t
    cases t with
    | mk L =>
      cases L with
      | nil => simp
      | cons c cs =>
        constructor
        · intro h
          exfalso
          simp [String.length_mk] at h
        · intro h
          exfalso
          have h2 : (String.mk (c :: cs)).data = ("" : String).data :=
            congrArg String.data h
          simp at h2
  | undefined => simp [sanitizeOptionalString, blankJs]
  | null => simp [sanitizeOptionalString, blankJs]
  | bool b => simp [sanitizeOptionalString, blankJs]
  | num n => simp [sanitizeOptionalString, blankJs]
  | arr xs => simp [sanitizeOptionalString, blankJs]
  | obj fs => simp [sanitizeOptionalString, blankJs]

/-- C2: `resolveImageReference` examines the three variants in fixed order
with the first present one deciding the outcome — the result depends only on
the store and the winning field (parts 1 and 2); a remote token alone
resolves successfully even when no local record carries that token (parts 3
and 4); inline bytes are used only when the first two are blank (part 5);
and an input in which every variant is blank (absent, non-string or
whitespace-only) fails with `InvalidRequest` (part 6). -/
theorem resolveImageReference_order_and_fallbacks :
    (∀ (records : List ImageRecord) (input input' : ImageReferenceInput)
        (u : String),
      sanitizeOptionalString input.resource_uri = some u →
      input'.resource_uri = input.resource_uri →
      resolveImageReference records input =
        resolveImageReference records input') ∧
    (∀ (records : List ImageRecord) (input input' : ImageReferenceInput)
        (t : String),
      sanitizeOptionalString input.resource_uri = none →
      sanitizeOptionalString input'.resource_uri = none →
      sanitizeOptionalString input.image_token = some t →
      input'.image_token = input.image_token →
      resolveImageReference records input =
        resolveImageReference records input') ∧
    (∀ (records : List ImageRecord) (input : ImageReferenceInput)
        (t : String),
      sanitizeOptionalString input.resource_uri = none →
      sanitizeOptionalString input.image_token = some t →
      resolveImageReference records input =
        .ok { imageToken := some t
              record := getImageRecordByToken records t
              directBase64 := none
              source := .image_token }) ∧
    (∀ (records : List ImageRecord) (input : ImageReferenceInput)
        (t : String),
      sanitizeOptionalString input.resource_uri = none →
      sanitizeOptionalString input.image_token = some t →
      (∀ r ∈ records, r.imageToken ≠ some t) →
      resolveImageReference records input =
        .ok { imageToken := some t
              record := none
              directBase64 := none
              source := .image_token }) ∧
    (∀ (records : List ImageRecord) (input : ImageReferenceInput)
        (b : String),
      sanitizeOptionalString input.resource_uri = none →
      sanitizeOptionalString input.image_token = none →
      sanitizeOptionalString input.image_base64 = some b →
      resolveImageReference records input =
        .ok { imageToken := none
              record := none
              directBase64 := some b
              source := .image_base64 }) ∧
    (∀ (records : List ImageRecord) (input : ImageReferenceInput),
      blankJs input.resource_uri → blankJs input.image_token →
      blankJs input.image_base64 →
      resolveImageReference records input =
        .error ⟨.invalidRequest,
          "Provide at least one of resource_uri, image_token, or image_base64."⟩) := by
  refine ⟨?_, ?_, ?_, ?_, ?_, ?_⟩
  · intro records input input' u h hu
    have h' : sanitizeOptionalString input'.resource_uri = some u := by
      rw [hu, h]
    simp only [resolveImageReference, h, h']
  · intro records input input' t h0 h0' ht ht'
    have h' : sanitizeOptionalString input'.image_token = some t := by
      rw [ht', ht]
    simp only [resolveImageReference, h0, h0', ht, h']
  · intro records input t h0 ht
    simp [resolveImageReference, h0, ht]
  · intro records input t h0 ht habsent
    have hnone : getImageRecordByToken records t = none := by
      simp only [getImageRecordByToken, List.find?_eq_none, decide_eq_true_eq]
      exact fun r hr => habsent r hr
    simp [resolveImageReference, h0, ht, hnone]
  · intro records input b h0 ht hb
    simp [resolveImageReference, h0, ht, hb]
  · intro records input h0 ht hb
    rw [← sanitizeOptionalString_eq_none] at h0 ht hb
    simp [resolveImageReference, h0, ht, hb]

/-- Witness for `resolveImageReference_order_and_fallbacks`: a token-only
input with an empty store resolves to that token with no record; a fully
blank input (non-string token, whitespace base64) is rejected. -/
theorem resolveImageReference_order_and_fallbacks_witness :
    resolveImageReference [] ⟨.undefined, .str "tok-9", .undefined⟩ =
      .ok { imageToken := some "tok-9"
            record := none
            directBase64 := none
            source := .image_token } ∧
    resolveImageReference [] ⟨.undefined, .num .nan, .str "  "⟩ =
      .error ⟨.invalidRequest,
        "Provide at least one of resource_uri, image_token, or image_base64."⟩ := by
  constructor
  · exact resolveImageReference_order_and_fallbacks.2.2.2.1 []
      ⟨.undefined, .str "tok-9", .undefined⟩ "tok-9" (by decide) (by decide)
      (by intro r hr; cases hr)
  · exact resolveImageReference_order_and_fallbacks.2.2.2.2.2 []
      ⟨.undefined, .num .nan, .str "  "⟩ trivial trivial
      (show jsTrim "  " = "" by decide)

/-- C3: resolving a reference whose `resource_uri` extracts to an id held by
no record in the store fails with the resource-not-found error (raised with
the SDK's `InvalidRequest` code, the category the spec calls `NotFound`). -/
theorem resolveImageReference_resource_not_found
    (records : List ImageRecord) (input : ImageReferenceInput)
    (uri rid : String)
    (hu : sanitizeOptionalString input.resource_uri = some uri)
    (hex : extractResourceId uri = .ok rid)
    (habsent : ∀ r ∈ records, r.id ≠ rid) :
    resolveImageReference records input =
      .error ⟨.invalidRequest, "Resource not found: " ++ uri⟩ := by
  have hnone : getImageRecord records rid = none := by
    simp only [getImageRecord, List.find?_eq_none, decide_eq_true_eq]
    exact fun r hr => habsent r hr
  simp [resolveImageReference, hu, hex, hnone]

/-- Witness for `resolveImageReference_resource_not_found`: resolving
`resource://ai-image-api/image/abc` against an empty store. -/
theorem resolveImageReference_resource_not_found_witness :
    resolveImageReference []
        ⟨.str "resource://ai-image-api/image/abc", .undefined, .undefined⟩ =
      .error ⟨.invalidRequest,
        "Resource not found: resource://ai-image-api/image/abc"⟩ :=
  resolveImageReference_resource_not_found []
    ⟨.str "resource://ai-image-api/image/abc", .undefined, .undefined⟩
    "resource://ai-image-api/image/abc" "abc" (by decide) (by rfl)
    (by intro r hr; cases hr)

/-- C4: when the resolved reference has no token, `ensureImageToken` fails
with `InvalidRequest` unless `uploadIfNeeded` is set; with it set, the bytes
are taken from the inline input first and otherwise from the record's cached
file (failing with `InvalidRequest` when neither is available), exactly one
upload is issued carrying exactly those bytes, and the token returned by the
upload becomes the reference's token. -/
theorem ensureImageToken_upload_behavior :
    (∀ (upload : ImageUploadRequest → ImageUploadResponse)
        (files : String → Option String)
        (reference : ResolvedImageReference) (options : EnsureOptions),
      reference.imageToken = none → options.uploadIfNeeded = false →
      ensureImageToken upload files reference options =
        .error ⟨.invalidRequest, "image_token is required for this operation."⟩) ∧
    (∀ (upload : ImageUploadRequest → ImageUploadResponse)
        (files : String → Option String)
        (reference : ResolvedImageReference) (options : EnsureOptions),
      reference.imageToken = none → options.uploadIfNeeded = true →
      reference.directBase64 = none →
      (∀ r, reference.record = some r → readRecordBase64 files r = none) →
      ensureImageToken upload files reference options =
        .error ⟨.invalidRequest,
          "Unable to resolve base64 image data. Provide image_base64 explicitly or reference a cached resource."⟩) ∧
    (∀ (upload : ImageUploadRequest → ImageUploadResponse)
        (files : String → Option String)
        (reference : ResolvedImageReference) (options : EnsureOptions)
        (b : String),
      reference.imageToken = none → options.uploadIfNeeded = true →
      (reference.directBase64 = some b ∨
        (reference.directBase64 = none ∧
          ∃ r, reference.record = some r ∧ readRecordBase64 files r = some b)) →
      ensureImageToken upload files reference options =
        .ok (((upload { image_base64 := b
                        source := some (options.uploadSource.getD "mcp-upload")
                        derived_from := options.derivedFrom
                        prompt := options.prompt }).image_token,
               reference.record),
             [{ image_base64 := b
                source := some (options.uploadSource.getD "mcp-upload")
                derived_from := options.derivedFrom
                prompt := options.prompt }])) := by
  refine ⟨?_, ?_, ?_⟩
  · intro upload files reference options htok hflag
    simp [ensureImageToken, htok, hflag]
  · intro upload files reference options htok hflag hdirect hrec
    cases hr : reference.record with
    | none => simp [ensureImageToken, htok, hflag, hdirect, hr]
    | some r =>
      have := hrec r hr
      simp [ensureImageToken, htok, hflag, hdirect, hr, this]
  · intro upload files reference options b htok hflag hbytes
    rcases hbytes with hdirect | ⟨hdirect, r, hr, hread⟩
    · simp [ensureImageToken, htok, hflag, hdirect]
    · simp [ensureImageToken, htok, hflag, hdirect, hr, hread]

/-- Witness for `ensureImageToken_upload_behavior`: inline bytes with
`uploadIfNeeded` perform one upload with those bytes and adopt the returned
token; without `uploadIfNeeded` the same reference is rejected. -/
theorem ensureImageToken_upload_behavior_witness :
    ensureImageToken (fun _ => ⟨"tok-up", []⟩) (fun _ => none)
        { imageToken := none, record := none, directBase64 := some "QUJD",
          source := .image_base64 }
        { uploadIfNeeded := true } =
      .ok (("tok-up", none),
        [{ image_base64 := "QUJD", source := some "mcp-upload",
           derived_from := none, prompt := none }]) ∧
    ensureImageToken (fun _ => ⟨"tok-up", []⟩) (fun _ => none)
        { imageToken := none, record := none, directBase64 := some "QUJD",
          source := .image_base64 }
        { uploadIfNeeded := false } =
      .error ⟨.invalidRequest, "image_token is required for this operation."⟩ := by
  constructor
  · exact ensureImageToken_upload_behavior.2.2 (fun _ => ⟨"tok-up", []⟩)
      (fun _ => none)
      { imageToken := none, record := none, directBase64 := some "QUJD",
        source := .image_base64 }
      { uploadIfNeeded := true } "QUJD" rfl rfl (Or.inl rfl)
  · exact ensureImageToken_upload_behavior.1 (fun _ => ⟨"tok-up", []⟩)
      (fun _ => none)
      { imageToken := none, record := none, directBase64 := some "QUJD",
        source := .image_base64 }
      { uploadIfNeeded := false } rfl rfl

/-- Helper: a clock whose consecutive guard readings are at least one poll
delay (≥ 1000 ms) apart grows linearly. -/
theorem pollClock_lower_bound (env : PollEnv)
    (hmono0 : env.now 0 ≤ env.now 1)
    (hadv : ∀ k, env.now (k + 1) + 1000 ≤ env.now (k + 2)) :
    ∀ k : Nat, env.now 0 + (k : Int) * 1000 ≤ env.now (k + 1) := by
  intro k
  induction k with
  | zero => simpa using hmono0
  | succ m ih =>
    have h := hadv m
    have h2 : m + 1 + 1 = m + 2 := rfl
    rw [h2]
    push_cast
    push_cast at ih
    omega

/-- Helper: when no poll ever returns a terminal status, the loop polls at
every guard instant before the deadline and returns the timeout error at the
first guard instant past it. -/
theorem pollLoop_timeout_run (env : PollEnv) (jobId : String)
    (deadline cfgT : Int) (N : Nat)
    (hnoterm : ∀ k r, env.getJobResult k = .ok r →
      jsToLower r.status ≠ "succeeded" ∧ jsToLower r.status ≠ "completed" ∧
      jsToLower r.status ≠ "failed" ∧ jsToLower r.status ≠ "error" ∧
      jsToLower r.status ≠ "cancelled")
    (hbefore : ∀ k < N, env.now (k + 1) < deadline)
    (hafter : ¬ env.now (N + 1) < deadline) :
    ∀ fuel k, k ≤ N → N < k + fuel →
      pollLoop env jobId deadline cfgT fuel k (lastObservedStatus env k) =
        (.error (timeoutError jobId cfgT (lastObservedStatus env N)), N) := by
  intro fuel
  induction fuel with
  | zero => intro k hk hlt; omega
  | succ f ih =>
    intro k hk hlt
    rcases Nat.eq_or_lt_of_le hk with heq | hklt
    · subst heq
      simp [pollLoop, hafter]
    · have hguard := hbefore k hklt
      cases hres : env.getJobResult k with
      | ok r =>
        have hnt := hnoterm k r hres
        have hlast : lastObservedStatus env (k + 1) = some (jsToLower r.status) := by
          simp [lastObservedStatus, hres, hnt.1, hnt.2.1, hnt.2.2.1,
            hnt.2.2.2.1, hnt.2.2.2.2]
        have := ih (k + 1) hklt (by omega)
        rw [hlast] at this
        simpa [pollLoop, hguard, hres, hnt.1, hnt.2.1, hnt.2.2.1,
          hnt.2.2.2.1, hnt.2.2.2.2] using this
      | error m =>
        have hlast : lastObservedStatus env (k + 1) = lastObservedStatus env k := by
          simp [lastObservedStatus, hres]
        have := ih (k + 1) hklt (by omega)
        rw [hlast] at this
        simpa [pollLoop, hguard, hres] using this

/-- C5: a job that never reports a terminal status makes `waitForJobResult`
poll at every guard instant before the absolute deadline
`now + timeoutSeconds` and fail at the first guard instant at or past it —
neither immediately nor indefinitely — with the timeout error carrying the
job id, the configured timeout and the last observed status (`"unknown"`
when no status was ever observed).  The clock hypotheses say that time does
not run backwards and that consecutive guard readings are separated by the
poll delay (at least one second, since the source clamps the interval to a
minimum of one second). -/
theorem waitForJobResult_timeout_at_deadline (env : PollEnv) (jobId : String)
    (options : WaitOptions) (t : Int) (N : Nat)
    (ht : options.timeoutSeconds = some t) (h1 : 1 ≤ t)
    (hmono0 : env.now 0 ≤ env.now 1)
    (hadv : ∀ k, env.now (k + 1) + 1000 ≤ env.now (k + 2))
    (hnoterm : ∀ k r, env.getJobResult k = .ok r →
      jsToLower r.status ≠ "succeeded" ∧ jsToLower r.status ≠ "completed" ∧
      jsToLower r.status ≠ "failed" ∧ jsToLower r.status ≠ "error" ∧
      jsToLower r.status ≠ "cancelled")
    (hbefore : ∀ k < N, env.now (k + 1) < env.now 0 + t * 1000)
    (hafter : ¬ env.now (N + 1) < env.now 0 + t * 1000) :
    waitForJobResult env jobId options =
      (.error (timeoutError jobId t (lastObservedStatus env N)), N) := by
  have hmax : max 1 t = t := max_eq_right h1
  have hfuel : N < 0 + ((t * 1000).toNat + 1) := by
    rcases N with _ | m
    · omega
    · have hchain := pollClock_lower_bound env hmono0 hadv m
      have hlt := hbefore m (Nat.lt_succ_self m)
      omega
  have := pollLoop_timeout_run env jobId (env.now 0 + t * 1000) t N hnoterm
    hbefore hafter ((t * 1000).toNat + 1) 0 (Nat.zero_le N) hfuel
  simpa [waitForJobResult, ht, hmax] using this

/-- Witness for `waitForJobResult_timeout_at_deadline`: a job polled twice
(at 0 s and 1 s) that stays `"running"` against a 2-second timeout times out
at the third guard with the last status recorded. -/
theorem waitForJobResult_timeout_at_deadline_witness :
    waitForJobResult
        ⟨fun n => 1000 * (n : Int) - 1000,
         fun _ => .ok { status := "running" }⟩ "j1"
        { pollIntervalSeconds := some 1, timeoutSeconds := some 2 } =
      (.error ⟨.internalError,
        "Job j1 did not complete within 2 seconds (last status: running)."⟩,
       1) := by
  have h := waitForJobResult_timeout_at_deadline
    ⟨fun n => 1000 * (n : Int) - 1000,
     fun _ => .ok { status := "running" }⟩ "j1"
    { pollIntervalSeconds := some 1, timeoutSeconds := some 2 } 2 1
    rfl (by norm_num) (by norm_num)
    (fun k => by simp only []; push_cast; ring_nf; omega)
    (fun k r hr => by
      cases hr
      refine ⟨?_, ?_, ?_, ?_, ?_⟩ <;> decide)
    (fun k hk => by
      interval_cases k
      norm_num)
    (by norm_num)
  have hl : lastObservedStatus
      ⟨fun n => 1000 * (n : Int) - 1000,
       fun _ => .ok { status := "running" }⟩ 1 = some "running" := by decide
  rw [hl] at h
  have hm : timeoutError "j1" 2 (some "running") =
      ⟨.internalError,
        "Job j1 did not complete within 2 seconds (last status: running)."⟩ := by
    decide
  rw [hm] at h
  exact h

/-- Helper: when every poll before attempt `j` throws (is swallowed) and
attempt `j` reports a success status before the deadline, the loop returns
that result after `j + 1` polls, whatever `lastStatus` holds. -/
theorem pollLoop_success_run (env : PollEnv) (jobId : String)
    (deadline cfgT : Int) (j : Nat) (r : JobResultResponse)
    (herr : ∀ k < j, ∃ m, env.getJobResult k = .error m)
    (hok : env.getJobResult j = .ok r)
    (hsucc : jsToLower r.status = "succeeded" ∨ jsToLower r.status = "completed")
    (hdl : ∀ k ≤ j, env.now (k + 1) < deadline) :
    ∀ fuel k, k ≤ j → j < k + fuel → ∀ last,
      pollLoop env jobId deadline cfgT fuel k last = (.ok r, j + 1) := by
  intro fuel
  induction fuel with
  | zero => intro k hk hlt; omega
  | succ f ih =>
    intro k hk hlt last
    rcases Nat.eq_or_lt_of_le hk with heq | hklt
    · subst heq
      simp [pollLoop, hdl k le_rfl, hok, hsucc]
    · obtain ⟨m, hm⟩ := herr k hklt
      have := ih (k + 1) hklt (by omega) last
      simpa [pollLoop, hdl k (Nat.le_of_lt hklt), hm] using this

/-- C6: transient fetch errors during polling are swallowed, never surfaced:
if every poll before attempt `j` throws (any error message — network
failure, 404/not-found, not-ready, ...) and attempt `j`, still before the
deadline, reports a success status, `waitForJobResult` returns that
successful outcome after exactly `j + 1` polls. -/
theorem waitForJobResult_transient_errors_recovered (env : PollEnv)
    (jobId : String) (options : WaitOptions) (t : Int) (j : Nat)
    (r : JobResultResponse)
    (ht : options.timeoutSeconds = some t) (h1 : 1 ≤ t)
    (hmono0 : env.now 0 ≤ env.now 1)
    (hadv : ∀ k, env.now (k + 1) + 1000 ≤ env.now (k + 2))
    (herr : ∀ k < j, ∃ m, env.getJobResult k = .error m)
    (hok : env.getJobResult j = .ok r)
    (hsucc : jsToLower r.status = "succeeded" ∨ jsToLower r.status = "completed")
    (hdl : ∀ k ≤ j, env.now (k + 1) < env.now 0 + t * 1000) :
    waitForJobResult env jobId options = (.ok r, j + 1) := by
  have hmax : max 1 t = t := max_eq_right h1
  have hfuel : j < 0 + ((t * 1000).toNat + 1) := by
    have hchain := pollClock_lower_bound env hmono0 hadv j
    have hlt := hdl j le_rfl
    omega
  have := pollLoop_success_run env jobId (env.now 0 + t * 1000) t j r herr hok
    hsucc hdl ((t * 1000).toNat + 1) 0 (Nat.zero_le j) hfuel none
  simpa [waitForJobResult, ht, hmax] using this

/-- Witness for `waitForJobResult_transient_errors_recovered`: a network
error on the first poll followed by `"Succeeded"` on the second yields the
successful outcome after two polls. -/
theorem waitForJobResult_transient_errors_recovered_witness :
    waitForJobResult
        ⟨fun n => 1000 * (n : Int) - 1000,
         fun k => if k = 0 then .error "network failure"
                  else .ok { status := "Succeeded", image_token := some "tok-r" }⟩
        "j2" { pollIntervalSeconds := some 1, timeoutSeconds := some 3 } =
      (.ok { status := "Succeeded", image_token := some "tok-r" }, 2) := by
  exact waitForJobResult_transient_errors_recovered
    ⟨fun n => 1000 * (n : Int) - 1000,
     fun k => if k = 0 then .error "network failure"
              else .ok { status := "Succeeded", image_token := some "tok-r" }⟩
    "j2" { pollIntervalSeconds := some 1, timeoutSeconds := some 3 } 3 1
    { status := "Succeeded", image_token := some "tok-r" }
    rfl (by norm_num) (by norm_num)
    (fun k => by simp only []; push_cast; ring_nf; omega)
    (fun k hk => by
      interval_cases k
      exact ⟨"network failure", rfl⟩)
    (by norm_num)
    (Or.inl (by decide))
    (fun k hk => by
      interval_cases k <;> norm_num)

/-- C1 (bug evidence): a job whose every poll reports status `"failed"` does
not make `waitForJobResult` fail immediately with the job-failure error.
The `McpError` built for a terminal-failure status is thrown inside the
`try` block and caught by the surrounding `catch`, which swallows every
error (its regular expression only suppresses logging), so the loop keeps
polling and ends with the *timeout* error — here 2 polls instead of 1 and a
timeout message with last status `"unknown"` (the failure branch never
records a status) instead of `Job j1 failed: boom`. -/
theorem waitForJobResult_failed_status_swallowed :
    waitForJobResult
        ⟨fun n => match n with | 0 => 0 | k + 1 => 1000 * (k : Int),
         fun _ => .ok { status := "failed", error := some "boom" }⟩ "j1"
        { pollIntervalSeconds := some 1, timeoutSeconds := some 2 } =
      (.error ⟨.internalError,
        "Job j1 did not complete within 2 seconds (last status: unknown)."⟩,
       2) ∧
    jobFailedError "j1" (some "boom") =
      ⟨.internalError, "Job j1 failed: boom"⟩ := by
  constructor
  · rfl
  · rfl

/-- Helper: a filtered-out key is never found. -/
theorem find?_key_filter_ne (m : List (String × Jv)) (k : String) :
    (m.filter (fun kv => kv.1 ≠ k)).find? (fun kv => kv.1 = k) = none := by
  rw [List.find?_eq_none]
  intro kv hkv
  have := (List.mem_filter.mp hkv).2
  simpa using this

/-- Helper: reading back the key just assigned. -/
theorem objGet_objSet_self (m : List (String × Jv)) (k : String) (v : Jv) :
    Jv.objGet (Jv.objSet m k v) k = some v := by
  simp only [Jv.objGet, Jv.objSet]
  rw [List.find?_append, find?_key_filter_ne]
  simp

/-- Helper: a key assigned before a second, different key is still read
back after the second assignment. -/
theorem objGet_objSet_objSet_first (m : List (String × Jv)) (k₁ k₂ : String)
    (v₁ v₂ : Jv) (hne : k₁ ≠ k₂) :
    Jv.objGet (Jv.objSet (Jv.objSet m k₁ v₁) k₂ v₂) k₁ = some v₁ := by
  have h1 : ((m.filter (fun kv => kv.1 ≠ k₁)).filter
      (fun kv => kv.1 ≠ k₂)).find? (fun kv => kv.1 = k₁) = none := by
    rw [List.find?_eq_none]
    intro kv hkv
    have := (List.mem_filter.mp (List.mem_filter.mp hkv).1).2
    simpa using this
  simp only [Jv.objGet, Jv.objSet, List.filter_append]
  rw [List.find?_append, List.find?_append, h1]
  simp [hne]

/-- C8: every successful `handleUpscaleImage` call saves a record whose
metadata binds `upscaled_from` to the ensured source token and
`upscale_scale` to the validated requested scale, defaulting to 2 when no
scale was supplied; the payload's `original_image_token` and `used_params`
scale agree with them. -/
theorem handleUpscaleImage_metadata_provenance (env : UpscaleEnv)
    (params : UpscaleParams) (out : UpscaleOutcome)
    (reference : ResolvedImageReference)
    (ensured : String × Option ImageRecord) (uploads : List ImageUploadRequest)
    (scaleOpt : Option Int)
    (hres : resolveImageReference env.storage.records
      ⟨params.resource_uri, params.image_token, params.image_base64⟩ =
        .ok reference)
    (hscale : parseOptionalInteger params.scale "scale" (some 1) (some 8) =
      .ok scaleOpt)
    (hens : ensureImageToken env.uploadImage env.storage.files reference
      { uploadIfNeeded := true
        uploadSource := some "mcp-upscale-upload"
        derivedFrom := reference.imageToken.map (fun t => [t]) } =
        .ok (ensured, uploads))
    (h : handleUpscaleImage env params = .ok out) :
    out.original_image_token = ensured.1 ∧
    out.used_scale = scaleOpt.getD 2 ∧
    ∃ md, out.savedRecord.metadata = some md ∧
      Jv.objGet md "upscaled_from" = some (.str ensured.1) ∧
      Jv.objGet md "upscale_scale" = some (Jv.int (scaleOpt.getD 2)) := by
  unfold handleUpscaleImage at h
  rw [hres] at h
  simp only [hscale, hens] at h
  repeat' split at h
  all_goals try (exfalso; exact Except.noConfusion h)
  all_goals (
    injection h with h2
    subst h2
    refine ⟨rfl, rfl, _, rfl, ?_, ?_⟩
    · exact objGet_objSet_objSet_first _ _ _ _ _ (by decide)
    · exact objGet_objSet_self _ _ _)

/-- Witness for `handleUpscaleImage_metadata_provenance`: the demo pipeline
(inline bytes, no scale) saves metadata binding `upscaled_from` to the
uploaded token `tok-src` and `upscale_scale` to the default 2. -/
theorem handleUpscaleImage_metadata_provenance_witness :
    (handleUpscaleImage upscaleDemoEnv upscaleDemoParams).map
        (fun out => (out.original_image_token, out.used_scale)) =
      .ok ("tok-src", 2) ∧
    (handleUpscaleImage upscaleDemoEnv upscaleDemoParams).map
        (fun out => out.savedRecord.metadata.map
          (fun md => (Jv.objGet md "upscaled_from",
                      Jv.objGet md "upscale_scale"))) =
      .ok (some (some (Jv.str "tok-src"), some (Jv.int 2))) := by
  have hok : (handleUpscaleImage upscaleDemoEnv upscaleDemoParams).toOption.isSome
      = true := by rfl
  have hrun : handleUpscaleImage upscaleDemoEnv upscaleDemoParams =
      .ok ((handleUpscaleImage upscaleDemoEnv upscaleDemoParams).toOption.get
        hok) := by rfl
  obtain ⟨h1, h2, md, hmd, g1, g2⟩ :=
    handleUpscaleImage_metadata_provenance upscaleDemoEnv upscaleDemoParams _
      { imageToken := none, record := none, directBase64 := some "QUJD",
        source := .image_base64 }
      ("tok-src", none)
      [{ image_base64 := "QUJD", source := some "mcp-upscale-upload",
         derived_from := none, prompt := none }]
      none (by rfl) (by rfl) (by rfl) hrun
  rw [hrun]
  simp [Except.map, h1, h2, hmd, g1, g2]

/-- Helper: under the validity hypothesis, a time bound is accepted and
evaluates to its truthiness-guarded parse. -/
theorem parseTimeBound_ok (env : SearchEnv) (value : Option String)
    (field : String)
    (h : ∀ b, value = some b → b ≠ "" → env.dateParse b ≠ none) :
    parseTimeBound env value field =
      .ok (if strTruthy value then env.dateParse (value.getD "") else none) := by
  unfold parseTimeBound
  by_cases ht : strTruthy value = true
  · rcases value with _ | b
    · simp [strTruthy] at ht
    · have hb : b ≠ "" := by simpa [strTruthy] using ht
      have hne := h b rfl hb
      cases hd : env.dateParse b
      · exact absurd hd hne
      · simp [ht, hd]
  · simp [Bool.not_eq_true] at ht
    simp [ht]

/-- Helper: the normalized search limit always lands in `[1, 20]`. -/
theorem normalizedLimitOf_mem_Icc (limit : Option ENum) :
    1 ≤ normalizedLimitOf limit ∧ normalizedLimitOf limit ≤ 20 := by
  rcases limit with _ | e
  · simp [normalizedLimitOf]
  · cases e with
    | finite q =>
      simp only [normalizedLimitOf]
      omega
    | nan => simp [normalizedLimitOf]
    | posInf => simp [normalizedLimitOf]
    | negInf => simp [normalizedLimitOf]

/-- C10: `handleSearchImages` accepts every `limit` value (missing or
non-finite limits default to 5, finite ones are floored and clamped into
`[1, 20]`), returns at most that many results with `returned` counting
them, reports in `total_matches` the number of matching records before
truncation, and — whenever every stored date parses — orders the results by
`createdAt` descending. -/
theorem handleSearchImages_limit_normalization_and_order (env : SearchEnv)
    (params : ImageSearchParams)
    (hbv : ∀ b, params.before = some b → b ≠ "" → env.dateParse b ≠ none)
    (hav : ∀ a, params.after = some a → a ≠ "" → env.dateParse a ≠ none) :
    ∃ out, handleSearchImages env params = .ok out ∧
      1 ≤ normalizedLimitOf params.limit ∧
      normalizedLimitOf params.limit ≤ 20 ∧
      (params.limit = none → normalizedLimitOf params.limit = 5) ∧
      (∀ e, params.limit = some e → e.isFinite = false →
        normalizedLimitOf params.limit = 5) ∧
      (∀ q : ℚ, params.limit = some (.finite q) →
        normalizedLimitOf params.limit = min (max ⌊q⌋ 1) 20) ∧
      out.results.length ≤ (normalizedLimitOf params.limit).toNat ∧
      out.returned = out.results.length ∧
      out.total_matches =
        (env.records.filter (searchMatches env params)).length ∧
      ((∀ r ∈ env.records, (env.dateParse r.createdAt).isSome = true) →
        out.results.Pairwise (fun x y =>
          (env.dateParse y.created_at).getD 0 ≤
            (env.dateParse x.created_at).getD 0)) := by
  have hb := parseTimeBound_ok env params.before "before" hbv
  have ha := parseTimeBound_ok env params.after "after" hav
  simp only [handleSearchImages, hb, ha]
  refine ⟨_, rfl, (normalizedLimitOf_mem_Icc params.limit).1,
    (normalizedLimitOf_mem_Icc params.limit).2, ?_, ?_, ?_, ?_, ?_, ?_, ?_⟩
  · intro h; simp [normalizedLimitOf, h]
  · intro e he hfin
    cases e <;> simp_all [normalizedLimitOf, ENum.isFinite]
  · intro q hq; simp [normalizedLimitOf, hq]
  · simp only [List.length_map]
    exact List.length_take_le _ _
  · rfl
  · simp only [List.length_map, List.length_mergeSort]
    congr 1
    show _ = List.filter (fun r => searchMatches env params r) env.records
    cases hA : (if strTruthy params.after then
        env.dateParse (params.after.getD "") else none) with
    | none =>
      cases hB : (if strTruthy params.before then
          env.dateParse (params.before.getD "") else none) with
      | none =>
        by_cases hq : strTruthy (params.query.map (fun q => jsToLower (jsTrim q))) = true <;>
          by_cases hm : strTruthy (params.model.map (fun m => jsToLower (jsTrim m))) = true <;>
          simp [searchMatches, hA, hB, hq, hm, List.filter_filter, Bool.and_assoc]
      | some b =>
        by_cases hq : strTruthy (params.query.map (fun q => jsToLower (jsTrim q))) = true <;>
          by_cases hm : strTruthy (params.model.map (fun m => jsToLower (jsTrim m))) = true <;>
          simp [searchMatches, hA, hB, hq, hm, List.filter_filter, Bool.and_assoc]
    | some a =>
      cases hB : (if strTruthy params.before then
          env.dateParse (params.before.getD "") else none) with
      | none =>
        by_cases hq : strTruthy (params.query.map (fun q => jsToLower (jsTrim q))) = true <;>
          by_cases hm : strTruthy (params.model.map (fun m => jsToLower (jsTrim m))) = true <;>
          simp [searchMatches, hA, hB, hq, hm, List.filter_filter, Bool.and_assoc]
      | some b =>
        by_cases hq : strTruthy (params.query.map (fun q => jsToLower (jsTrim q))) = true <;>
          by_cases hm : strTruthy (params.model.map (fun m => jsToLower (jsTrim m))) = true <;>
          simp [searchMatches, hA, hB, hq, hm, List.filter_filter, Bool.and_assoc]
  · intro _
    rw [List.pairwise_map]
    refine List.Pairwise.sublist (List.take_sublist _ _) ?_
    refine List.Pairwise.imp ?_ (List.sorted_mergeSort ?_ ?_ _)
    · intro a b h
      simpa [searchSortKey] using of_decide_eq_true h
    · intro a b c hab hbc
      exact decide_eq_true
        (le_trans (of_decide_eq_true hbc) (of_decide_eq_true hab))
    · intro a b
      simpa using le_total (searchSortKey env b) (searchSortKey env a)

/-- Witness for `handleSearchImages_limit_normalization_and_order`: the
two-record store searched with a `NaN` limit succeeds with the limit
normalized to 5. -/
theorem handleSearchImages_limit_normalization_and_order_witness :
    ∃ out, handleSearchImages searchDemoEnv searchDemoParams = .ok out ∧
      1 ≤ normalizedLimitOf searchDemoParams.limit ∧
      normalizedLimitOf searchDemoParams.limit ≤ 20 ∧
      (searchDemoParams.limit = none →
        normalizedLimitOf searchDemoParams.limit = 5) ∧
      (∀ e, searchDemoParams.limit = some e → e.isFinite = false →
        normalizedLimitOf searchDemoParams.limit = 5) ∧
      (∀ q : ℚ, searchDemoParams.limit = some (.finite q) →
        normalizedLimitOf searchDemoParams.limit = min (max ⌊q⌋ 1) 20) ∧
      out.results.length ≤ (normalizedLimitOf searchDemoParams.limit).toNat ∧
      out.returned = out.results.length ∧
      out.total_matches =
        (searchDemoEnv.records.filter
          (searchMatches searchDemoEnv searchDemoParams)).length ∧
      ((∀ r ∈ searchDemoEnv.records,
          (searchDemoEnv.dateParse r.createdAt).isSome = true) →
        out.results.Pairwise (fun x y =>
          (searchDemoEnv.dateParse y.created_at).getD 0 ≤
            (searchDemoEnv.dateParse x.created_at).getD 0)) :=
  handleSearchImages_limit_normalization_and_order searchDemoEnv
    searchDemoParams
    (fun b hb => absurd hb (by simp [searchDemoParams]))
    (fun a ha => absurd ha (by simp [searchDemoParams]))
